import Mathlib

/-!
Verification of the changelog markdown parser (`src/parser.ts`).

The development is a shallow embedding of the single source file
`src/parser.ts`.  Strings are Lean `String`s manipulated through their
character lists; the ECMAScript regular expressions used by the source are
embedded as explicit sequences of quantified character-class pieces matched
by a greedy leftmost backtracking matcher (`matchPieces` / `searchPieces`),
which is exactly the semantics of the source's anchored-at-end patterns.
The mutable token queue of the source is modelled by explicit state passing;
thrown exceptions are modelled with `Except`.

The data containers `Changelog` (from `Changelog.ts`) and `Release` (from
`Release.ts`) are not part of `src/`; they are modelled from the spec's
boundary contract (section 6), see the doc comments on those structures.
-/

/-- The set of characters matched by ECMAScript `\s` and removed by
`String.prototype.trim` (WhiteSpace plus LineTerminator, ECMA-262). -/
def jsWhitespace (c : Char) : Bool :=
  let n := c.toNat
  n = 0x09 || n = 0x0a || n = 0x0b || n = 0x0c || n = 0x0d ||
  n = 0x20 || n = 0xa0 || n = 0x1680 ||
  (0x2000 ≤ n && n ≤ 0x200a) ||
  n = 0x2028 || n = 0x2029 || n = 0x202f || n = 0x205f ||
  n = 0x3000 || n = 0xfeff

/-- Characters matched by ECMAScript `.` (anything but a LineTerminator). -/
def jsDot (c : Char) : Bool :=
  let n := c.toNat
  !(n = 0x0a || n = 0x0d || n = 0x2028 || n = 0x2029)

/-- Characters matched by ECMAScript `\d`. -/
def jsDigit (c : Char) : Bool :=
  48 ≤ c.toNat && c.toNat ≤ 57

/-- Drop leading and trailing `jsWhitespace` characters: `String.prototype.trim`. -/
def trimChars (l : List Char) : List Char :=
  ((l.dropWhile jsWhitespace).reverse.dropWhile jsWhitespace).reverse

/-- `s.trim()` of ECMAScript. -/
def jsTrim (s : String) : String :=
  String.mk (trimChars s.toList)

/-- `s.trimEnd()` of ECMAScript. -/
def jsTrimEnd (s : String) : String :=
  String.mk ((s.toList.reverse.dropWhile jsWhitespace).reverse)

/-- `s.toLowerCase()`; ASCII letters only, which is all the source compares. -/
def jsToLower (s : String) : String :=
  String.mk (s.toList.map Char.toLower)

/-- `s.startsWith(pre)`. -/
def jsStartsWith (s pre : String) : Bool :=
  pre.toList.isPrefixOf s.toList

/-- `s.substr(n)`: drop the first `n` characters. -/
def strDrop (s : String) (n : Nat) : String :=
  String.mk (s.toList.drop n)

/-- `s.split("\n")` on the character list: literal split, `[""]` for `""`. -/
def splitNl : List Char → List (List Char)
  | [] => [[]]
  | c :: rest =>
    let r := splitNl rest
    if c = '\n' then [] :: r
    else
      match r with
      | h :: t => (c :: h) :: t
      | [] => [[c]]

/-- `s.includes(sub)`: substring test. -/
def hasSubstring : List Char → List Char → Bool
  | [], sub => sub.isEmpty
  | c :: t, sub => if sub.isPrefixOf (c :: t) then true else hasSubstring t sub

/-- One piece of an embedded regular expression: a literal character
sequence, or a character class with a repetition range (`none` = unbounded),
as in `\[?`, `([^\]]+)`, `\s*`, `\d{4}`, `\d{1,2}`, `.*`. -/
inductive Piece where
  | lit (cs : List Char)
  | cls (f : Char → Bool) (mn : Nat) (mx : Option Nat)

/-- `[hi, hi-1, ..., mn]` (empty if `hi < mn`): the order in which a greedy
quantifier tries repetition counts. -/
def descRange (mn : Nat) : Nat → List Nat
  | 0 => if 0 < mn then [] else [0]
  | k + 1 => if k + 1 < mn then [] else (k + 1) :: descRange mn k

/-- Match a sequence of pieces against the whole of `s` (the patterns of the
source are all anchored at the end by `$`), returning the chunk consumed by
each piece.  Greedy backtracking: each quantifier tries its largest feasible
count first, pieces left to right — the ECMAScript backtracking order, so
captures agree with the source's `String.prototype.match`. -/
def matchPieces : List Piece → List Char → Option (List (List Char))
  | [], s => if s.isEmpty then some [] else none
  | Piece.lit l :: ps, s =>
    if l.isPrefixOf s then (matchPieces ps (s.drop l.length)).map (fun r => l :: r)
    else none
  | Piece.cls f mn mx :: ps, s =>
    let run := (s.takeWhile f).length
    let hi := match mx with | none => run | some m => Nat.min run m
    (descRange mn hi).findSome? fun n =>
      (matchPieces ps (s.drop n)).map (fun r => s.take n :: r)

/-- Leftmost match of an end-anchored pattern: try each start position from
the left, as `String.prototype.match` does for a pattern without `^`. -/
def searchPieces (pat : List Piece) : List Char → Option (List (List Char))
  | [] => matchPieces pat []
  | c :: t =>
    match matchPieces pat (c :: t) with
    | some r => some r
    | none => searchPieces pat t

/-- Pieces of `/\[?([^\]]+)\]?\s*-\s*([\d]{4}-[\d]{1,2}-[\d]{1,2})$/`
(parser.ts line 48). Chunk 1 is group 1; chunks 6-10 joined are group 2. -/
def datedPieces : List Piece :=
  [Piece.cls (fun c => c = '[') 0 (some 1),
   Piece.cls (fun c => c ≠ ']') 1 none,
   Piece.cls (fun c => c = ']') 0 (some 1),
   Piece.cls jsWhitespace 0 none,
   Piece.lit ['-'],
   Piece.cls jsWhitespace 0 none,
   Piece.cls jsDigit 4 (some 4),
   Piece.lit ['-'],
   Piece.cls jsDigit 1 (some 2),
   Piece.lit ['-'],
   Piece.cls jsDigit 1 (some 2)]

/-- `release.match(/\[?([^\]]+)\]?\s*-\s*([\d]{4}-[\d]{1,2}-[\d]{1,2})$/)`:
leftmost match, `some (group1, group2)` on success. -/
def matchDated (s : String) : Option (String × String) :=
  match searchPieces datedPieces s.toList with
  | some [_, g1, _, _, _, _, d1, m1, d2, m2, d3] =>
    some (String.mk g1, String.mk (d1 ++ m1 ++ d2 ++ m2 ++ d3))
  | _ => none

/-- Pieces of `/\[?([^\]]+)\]?\s*-\s*unreleased$/` (parser.ts line 54). -/
def unrelPieces : List Piece :=
  [Piece.cls (fun c => c = '[') 0 (some 1),
   Piece.cls (fun c => c ≠ ']') 1 none,
   Piece.cls (fun c => c = ']') 0 (some 1),
   Piece.cls jsWhitespace 0 none,
   Piece.lit ['-'],
   Piece.cls jsWhitespace 0 none,
   Piece.lit ['u', 'n', 'r', 'e', 'l', 'e', 'a', 's', 'e', 'd']]

/-- `release.match(/\[?([^\]]+)\]?\s*-\s*unreleased$/)`: leftmost match,
`some group1` on success. -/
def matchUnrel (s : String) : Option String :=
  match searchPieces unrelPieces s.toList with
  | some [_, g1, _, _, _, _, _] => some (String.mk g1)
  | _ => none

/-- Pieces of `/^\[.*\]\:\s*http.*$/` (parser.ts line 157), anchored both ends. -/
def linkPieces : List Piece :=
  [Piece.lit ['['],
   Piece.cls jsDot 0 none,
   Piece.lit [']', ':'],
   Piece.cls jsWhitespace 0 none,
   Piece.lit ['h', 't', 't', 'p'],
   Piece.cls jsDot 0 none]

/-- `line.match(/^\[.*\]\:\s*http.*$/)` as a test. -/
def linkTest (s : String) : Bool :=
  (matchPieces linkPieces s.toList).isSome

/-- Pieces of `/^<!--(.*)-->$/` (parser.ts line 161). -/
def flagPieces : List Piece :=
  [Piece.lit ['<', '!', '-', '-'],
   Piece.cls jsDot 0 none,
   Piece.lit ['-', '-', '>']]

/-- `line.match(/^<!--(.*)-->$/)`: `some group1` on success. -/
def flagMatch (s : String) : Option String :=
  match matchPieces flagPieces s.toList with
  | some [_, g1, _] => some (String.mk g1)
  | _ => none

/-- Pieces of `/^\[.*\]\:\s*(http.*)\/compare\/.*$/` (parser.ts line 81).
Group 1 is chunks 4 and 5 joined. -/
def comparePieces : List Piece :=
  [Piece.lit ['['],
   Piece.cls jsDot 0 none,
   Piece.lit [']', ':'],
   Piece.cls jsWhitespace 0 none,
   Piece.lit ['h', 't', 't', 'p'],
   Piece.cls jsDot 0 none,
   Piece.lit ['/', 'c', 'o', 'm', 'p', 'a', 'r', 'e', '/'],
   Piece.cls jsDot 0 none]

/-- `link.match(/^\[.*\]\:\s*(http.*)\/compare\/.*$/)`: `some group1`. -/
def matchCompare (s : String) : Option String :=
  match matchPieces comparePieces s.toList with
  | some [_, _, _, _, h, u, _, _] => some (String.mk (h ++ u))
  | _ => none

/-- The token kinds of parser.ts line 120:
`type TokenType = "h1" | "h2" | "h3" | "li" | "p" | "link" | "flag" | "hr"`. -/
inductive TokenType where
  | h1 | h2 | h3 | li | p | link | flag | hr
deriving DecidableEq, Repr

/-- A token, parser.ts line 121: `type Token = [number, TokenType, string[]]`. -/
structure Token where
  line : Nat
  type : TokenType
  content : List String
deriving DecidableEq, Repr

/-- `content.join("\n")` as performed by `getContent` (parser.ts line 117). -/
def joinContent : List String → String
  | [] => ""
  | [s] => s
  | s :: rest => s ++ "\n" ++ joinContent rest

/-- `isEmpty` of parser.ts lines 207-213, string case:
`!val || val.trim() === ""`. -/
def isEmptyStr (s : String) : Bool :=
  (trimChars s.toList).isEmpty

/-- `isEmpty` of parser.ts lines 207-213, array case: the array is joined
with `""` and tested as a string. -/
def isEmptyArr (l : List String) : Bool :=
  isEmptyStr (String.join l)

/-- `content.replace(/^\s\s/, "")` (parser.ts line 180): remove the first
two characters when both match `\s`, otherwise leave the string unchanged. -/
def stripTwoWs (s : String) : String :=
  match s.toList with
  | a :: b :: rest => if jsWhitespace a && jsWhitespace b then String.mk rest else s
  | _ => s

/-- The per-line classifier of `tokenize` (parser.ts lines 130-166): first
match wins, fallback is a Paragraph keeping leading whitespace. -/
def classifyLine (lineNumber : Nat) (line : String) : Token :=
  if jsStartsWith line "---" then Token.mk lineNumber TokenType.hr ["-"]
  else if jsStartsWith line "# " then
    Token.mk lineNumber TokenType.h1 [jsTrim (strDrop line 1)]
  else if jsStartsWith line "## " then
    Token.mk lineNumber TokenType.h2 [jsTrim (strDrop line 2)]
  else if jsStartsWith line "### " then
    Token.mk lineNumber TokenType.h3 [jsTrim (strDrop line 3)]
  else if jsStartsWith line "-" then
    Token.mk lineNumber TokenType.li [jsTrim (strDrop line 1)]
  else if jsStartsWith line "*" then
    Token.mk lineNumber TokenType.li [jsTrim (strDrop line 1)]
  else if linkTest line then Token.mk lineNumber TokenType.link [jsTrim line]
  else
    match flagMatch line with
    | some g => Token.mk lineNumber TokenType.flag [jsTrim g]
    | none => Token.mk lineNumber TokenType.p [jsTrimEnd line]

/-- The merging `forEach` body of `tokenize` (parser.ts lines 168-186).
`acc` is the `tokens` array built with `unshift`, so its head is the most
recently emitted token; `idx` is the line index.  A Paragraph line following
a Paragraph token extends it; a Paragraph line following a ListItem token
extends it with `^\s\s` stripped; everything else starts a new token. -/
def mergeStep (acc : List Token) (idx : Nat) (t : Token) : List Token :=
  let c := t.content.headD ""
  if idx > 0 then
    match acc with
    | prev :: rest =>
      if t.type = TokenType.p then
        if prev.type = TokenType.p then
          Token.mk prev.line prev.type (prev.content ++ [c]) :: rest
        else if prev.type = TokenType.li then
          Token.mk prev.line prev.type (prev.content ++ [stripTwoWs c]) :: rest
        else Token.mk t.line t.type [c] :: acc
      else Token.mk t.line t.type [c] :: acc
    | [] => Token.mk t.line t.type [c] :: acc
  else Token.mk t.line t.type [c] :: acc

/-- Fold `mergeStep` over the classified lines with their indices. -/
def mergeAll (ts : List Token) : List Token :=
  ts.enum.foldl (fun acc it => mergeStep acc it.1 it.2) []

/-- Remove trailing blank lines of a token's content (the `pop` loop of
parser.ts lines 193-195). -/
def dropTrailingBlanks (l : List String) : List String :=
  (l.reverse.dropWhile isEmptyStr).reverse

/-- Trim a token's content: trailing blank lines, then leading blank lines
(parser.ts lines 190-202).  The source's loops terminate because the token
already passed the non-blank filter; `dropWhile` computes the same result
and is total. -/
def trimToken (t : Token) : Token :=
  Token.mk t.line t.type (List.dropWhile isEmptyStr (dropTrailingBlanks t.content))

/-- `tokenize` after the initial `.trim()`: split into lines, classify,
merge, filter all-blank tokens, trim each token's content, and restore the
original order (the accumulator is reversed, parser.ts line 203). -/
def tokenizeFrom (trimmed : String) : List Token :=
  let lines := (splitNl trimmed.toList).map String.mk
  let classified := lines.enum.map (fun il => classifyLine (il.1 + 1) il.2)
  let merged := mergeAll classified
  ((merged.filter (fun t => !isEmptyArr t.content)).map trimToken).reverse

/-- `tokenize` (parser.ts lines 124-204).  Total by construction: every
input yields a token list. -/
def tokenize (markdown : String) : List Token :=
  tokenizeFrom (jsTrim markdown)

/-- Release record.  Modelled from the spec: `Release.ts` is not under
`src/`; section 6 of the spec gives the boundary contract — constructor
takes optional version, date and description, the description is settable,
and `addChange` groups entries by type label preserving insertion order. -/
structure Release where
  version : Option String
  date : Option String
  description : Option String
  changes : List (String × List String)
deriving DecidableEq, Repr

/-- Append a change entry under a type label, accumulating repeated labels
into the same ordered list.  Modelled from the spec: the spec's section 3
release record is "a mapping from change-type label to an ordered sequence
of change-entry strings (insertion order preserved; same type appearing in
multiple `H3` sections accumulates into the same list)". -/
def addToChanges : List (String × List String) → String → String → List (String × List String)
  | [], ty, e => [(ty, [e])]
  | (t, es) :: rest, ty, e =>
    if t = ty then (t, es ++ [e]) :: rest else (t, es) :: addToChanges rest ty e

/-- `release.addChange(type, change)`.  Modelled from the spec (section 6). -/
def Release.addChange (r : Release) (ty e : String) : Release :=
  Release.mk r.version r.date r.description (addToChanges r.changes ty e)

/-- `release.description = d` (parser.ts line 63).  Modelled from the spec:
a settable description. -/
def Release.setDescription (r : Release) (d : String) : Release :=
  Release.mk r.version r.date (some d) r.changes

/-- Document record.  Modelled from the spec: `Changelog.ts` is not under
`src/`; section 6 gives settable flag, title, description, url, footer and
an append-only ordered release list.  Absent string fields are the empty
string, matching the source's use of string truthiness (`!changelog.url`). -/
structure Changelog where
  flag : String
  title : String
  description : String
  releases : List Release
  url : String
  footer : String
deriving DecidableEq, Repr

/-- `changelog.addRelease(release)`.  Modelled from the spec: append-only,
insertion order = encounter order. -/
def addRelease (cl : Changelog) (r : Release) : Changelog :=
  Changelog.mk cl.flag cl.title cl.description (cl.releases ++ [r]) cl.url cl.footer

def setFlag (cl : Changelog) (v : String) : Changelog :=
  Changelog.mk v cl.title cl.description cl.releases cl.url cl.footer

def setTitle (cl : Changelog) (v : String) : Changelog :=
  Changelog.mk cl.flag v cl.description cl.releases cl.url cl.footer

def setDescr (cl : Changelog) (v : String) : Changelog :=
  Changelog.mk cl.flag cl.title v cl.releases cl.url cl.footer

def setUrl (cl : Changelog) (v : String) : Changelog :=
  Changelog.mk cl.flag cl.title cl.description cl.releases v cl.footer

def setFooter (cl : Changelog) (v : String) : Changelog :=
  Changelog.mk cl.flag cl.title cl.description cl.releases cl.url v

/-- `new Changelog("")` (parser.ts line 37). -/
def emptyChangelog : Changelog :=
  Changelog.mk "" "" "" [] "" ""

/-- The `Options` record (parser.ts lines 4-14): an injectable factory for
release records, `releaseCreator(version?, date?, description?)`. -/
structure Options where
  releaseCreator : Option String → Option String → Option String → Release

/-- `defaultOptions` (parser.ts lines 16-19): construct the plain record. -/
def defaultOptions : Options :=
  Options.mk (fun v d desc => Release.mk v d desc [])

/-- Errors raised inside `processTokens`.  `requiredTokenMissing n` is the
`Required token missing in: "..."` error of parser.ts line 111, whose
message interpolates `tokens[0][0]` — the line number `n` of the front
token.  `frontFault` is the TypeError raised by that same interpolation
when the queue is empty (`tokens[0]` is `undefined`). -/
inductive PErr where
  | requiredTokenMissing (line : Nat)
  | frontFault
  | invalidReleaseHeader
  | unexpectedContent (rest : List Token)
deriving DecidableEq, Repr

/-- The failure surfaced by the top-level `parser`.  `parseError n e` is the
re-wrapped error `Parse error in the line n: ...` (parser.ts lines 29-31);
`wrapperFault` is the TypeError raised by the wrapper itself when it reads
`tokens[0][0]` from an already-empty queue, losing the original error. -/
inductive TopErr where
  | parseError (line : Nat) (e : PErr)
  | wrapperFault
deriving DecidableEq, Repr

deriving instance DecidableEq for Except

/-- `getContent(tokens, type, required)` (parser.ts lines 104-118).  On a
type match the front token is shifted and its joined content returned; on a
mismatch with `required = false` the empty string is returned without
consuming; with `required = true` the error interpolates `tokens[0][0]`,
which faults if the queue is empty. -/
def getContent (tokens : List Token) (ty : TokenType) (required : Bool) :
    Except PErr (String × List Token) :=
  match tokens with
  | [] =>
    if required then Except.error PErr.frontFault
    else Except.ok ("", [])
  | t :: rest =>
    if t.type = ty then Except.ok (joinContent t.content, rest)
    else if required then Except.error (PErr.requiredTokenMissing t.line)
    else Except.ok ("", t :: rest)

/-- `getContent` with `required = false`, which never fails: the shape used
by every optional read and by the loops of `processTokens`. -/
def takeOpt (tokens : List Token) (ty : TokenType) : String × List Token :=
  match tokens with
  | [] => ("", [])
  | t :: rest =>
    if t.type = ty then (joinContent t.content, rest) else ("", t :: rest)

/-- The nested `h3` / `li` loops of `processTokens` (parser.ts lines 65-73)
as a single pass over the queue.  State `cur` is the current change-type
label: `while ((type = getContent(tokens, "h3").toLowerCase()))` consumes an
`h3` and exits the outer loop when its lowered content is empty; inside,
`while ((change = getContent(tokens, "li")))` consumes `li` tokens and exits
the inner loop when one has empty content (after which a following `li` is
not consumed, since the outer loop demands an `h3` first — state `none`).
The result is the ordered list of `(type, change)` pairs passed to
`release.addChange`, with the unconsumed remainder of the queue. -/
def takeTypeChanges : Option String → List Token → List (String × String) × List Token
  | _, [] => ([], [])
  | cur, t :: rest =>
    if t.type = TokenType.h3 then
      let ty := jsToLower (joinContent t.content)
      if ty = "" then ([], rest)
      else takeTypeChanges (some ty) rest
    else
      match cur with
      | some ty =>
        if t.type = TokenType.li then
          let c := joinContent t.content
          if c = "" then takeTypeChanges none rest
          else
            let r := takeTypeChanges (some ty) rest
            ((ty, c) :: r.1, r.2)
        else ([], t :: rest)
      | none => ([], t :: rest)

/-- The release-header disambiguation of parser.ts lines 46-60, applied to
the lowercased `h2` content: the dated pattern first, then the `unreleased`
substring test with the labeled-unreleased pattern, else a syntax error. -/
inductive HeaderClass where
  | dated (label date : String)
  | labeledUnrel (label : String)
  | bareUnrel
  | invalid
deriving DecidableEq, Repr

def classifyHeader (low : String) : HeaderClass :=
  match matchDated low with
  | some g => HeaderClass.dated g.1 g.2
  | none =>
    if hasSubstring low.toList ("unreleased".toList) then
      match matchUnrel low with
      | some g1 => HeaderClass.labeledUnrel g1
      | none => HeaderClass.bareUnrel
    else HeaderClass.invalid

/-- The factory call for each header class (parser.ts lines 52-57). -/
def releaseFromHeader (opts : Options) : HeaderClass → Option Release
  | HeaderClass.dated g1 g2 => some (opts.releaseCreator (some g1) (some g2) none)
  | HeaderClass.labeledUnrel g1 => some (opts.releaseCreator (some g1) none none)
  | HeaderClass.bareUnrel => some (opts.releaseCreator none none none)
  | HeaderClass.invalid => none

/-- The release loop of `processTokens` (parser.ts lines 44-74), with a fuel
counter for structural recursion.  Each iteration consumes at least the `h2`
token, so the wrapper's fuel `tokens.length + 1` is never exhausted (see
`parseReleasesGo_fuel_irrel`).  In the source, `addRelease` runs before the
description and changes are attached to the (shared, mutable) release
object; with immutable records the fully-updated release is appended, which
yields the same final document.  On a bad header the `h2` token has already
been shifted, so the error state is the remaining queue `rest`. -/
def parseReleasesGo (opts : Options) :
    Nat → Changelog → List Token → Except (PErr × List Token) (Changelog × List Token)
  | 0, cl, tokens => Except.ok (cl, tokens)
  | fuel + 1, cl, tokens =>
    match tokens with
    | [] => Except.ok (cl, [])
    | t :: rest =>
      if t.type = TokenType.h2 then
        let low := jsToLower (joinContent t.content)
        if low = "" then Except.ok (cl, rest)
        else
          match releaseFromHeader opts (classifyHeader low) with
          | none => Except.error (PErr.invalidReleaseHeader, rest)
          | some rel0 =>
            let d := takeOpt rest TokenType.p
            let rel1 := Release.setDescription rel0 d.1
            let tc := takeTypeChanges none d.2
            let rel2 := tc.1.foldl (fun r pr => Release.addChange r pr.1 pr.2) rel1
            parseReleasesGo opts fuel (addRelease cl rel2) tc.2
      else Except.ok (cl, tokens)

def parseReleases (opts : Options) (cl : Changelog) (tokens : List Token) :
    Except (PErr × List Token) (Changelog × List Token) :=
  parseReleasesGo opts (tokens.length + 1) cl tokens

/-- The reference-link loop of `processTokens` (parser.ts lines 76-89):
consume `link` tokens; while the document URL is unset, the first content
matching the compare pattern sets it; every link token is discarded. -/
def skipLinks : Changelog → List Token → Changelog × List Token
  | cl, [] => (cl, [])
  | cl, t :: rest =>
    if t.type = TokenType.link then
      let link := joinContent t.content
      if link = "" then (cl, rest)
      else
        let cl2 :=
          if cl.url = "" then
            match matchCompare link with
            | some u => setUrl cl u
            | none => cl
          else cl
        skipLinks cl2 rest
    else (cl, t :: rest)

/-- The footer step of `processTokens` (parser.ts lines 92-94):
`if (getContent(tokens, "hr")) { changelog.footer = getContent(tokens, "p"); }`.
The `hr` read consumes a front `hr` token regardless of its truthiness; the
footer paragraph is an optional read. -/
def parseFooter (cl : Changelog) (tokens : List Token) : Changelog × List Token :=
  let h := takeOpt tokens TokenType.hr
  if h.1 ≠ "" then
    let f := takeOpt h.2 TokenType.p
    (setFooter cl f.1, f.2)
  else (cl, h.2)

/-- `processTokens` (parser.ts lines 36-101).  Errors carry the queue as it
stands when the exception is raised, which is what the top-level wrapper
reads (`tokens` is mutated in place by `shift`). -/
def processTokens (opts : Options) (tokens : List Token) :
    Except (PErr × List Token) Changelog :=
  let f := takeOpt tokens TokenType.flag
  let cl1 := setFlag emptyChangelog f.1
  match getContent f.2 TokenType.h1 true with
  | Except.error e => Except.error (e, f.2)
  | Except.ok (title, t2) =>
    let cl2 := setTitle cl1 title
    let d := takeOpt t2 TokenType.p
    let cl3 := setDescr cl2 d.1
    match parseReleases opts cl3 d.2 with
    | Except.error err => Except.error err
    | Except.ok (cl4, t4) =>
      let st := skipLinks cl4 t4
      let ft := parseFooter st.1 st.2
      if ft.2.isEmpty then Except.ok ft.1
      else Except.error (PErr.unexpectedContent ft.2, ft.2)

/-- The top-level entry point `parser` (parser.ts lines 22-33): tokenize,
process, and re-wrap any failure as
`Parse error in the line ${tokens[0][0]}: ...` — reading the front of the
(shared, mutated) queue.  If the queue is empty at that moment, the
interpolation itself raises a TypeError and the original error is lost. -/
def parser (markdown : String) (opts : Options) : Except TopErr Changelog :=
  let tokens := tokenize markdown
  match processTokens opts tokens with
  | Except.ok c => Except.ok c
  | Except.error (e, rem) =>
    match rem with
    | t :: _ => Except.error (TopErr.parseError t.line e)
    | [] => Except.error TopErr.wrapperFault

/-- The queue after the optional flag read (parser.ts line 39): the front
token is consumed exactly when it is a `flag` token. -/
def afterFlag (tokens : List Token) : List Token :=
  (takeOpt tokens TokenType.flag).2

/-- Whether a surfaced failure is the re-wrapped `Required token missing`
error of parser.ts line 111. -/
def isMissingRequiredErr : Except TopErr Changelog → Bool
  | Except.error (TopErr.parseError _ (PErr.requiredTokenMissing _)) => true
  | _ => false

/-- `getContent` with `required = false` never fails and behaves as
`takeOpt`: the bridge between the source's single `getContent` and the
total reads used in the loop embeddings. -/
theorem getContent_optional (tokens : List Token) (ty : TokenType) :
    getContent tokens ty false = Except.ok (takeOpt tokens ty) := by
  cases tokens with
  | nil => rfl
  | cons t rest =>
    unfold getContent takeOpt
    by_cases h : t.type = ty <;> simp [h]

theorem takeOpt_length_le (tokens : List Token) (ty : TokenType) :
    (takeOpt tokens ty).2.length ≤ tokens.length := by
  cases tokens with
  | nil => simp [takeOpt]
  | cons t rest =>
    unfold takeOpt
    by_cases h : t.type = ty <;> simp [h]

theorem takeTypeChanges_length_le :
    ∀ (cur : Option String) (tokens : List Token),
      (takeTypeChanges cur tokens).2.length ≤ tokens.length := by
  intro cur tokens
  induction tokens generalizing cur with
  | nil => simp [takeTypeChanges]
  | cons t rest ih =>
    unfold takeTypeChanges
    by_cases h1 : t.type = TokenType.h3
    · simp only [h1, if_true, eq_self_iff_true]
      by_cases h2 : jsToLower (joinContent t.content) = ""
      · simp [h2, Nat.le_succ_of_le, Nat.le_refl]
      · simpa [h2] using Nat.le_succ_of_le (ih (some (jsToLower (joinContent t.content))))
    · simp only [h1, if_false]
      cases cur with
      | none => simp
      | some ty =>
        by_cases h3 : t.type = TokenType.li
        · simp only [h3, if_true, eq_self_iff_true]
          by_cases h4 : joinContent t.content = ""
          · simpa [h4] using Nat.le_succ_of_le (ih none)
          · simpa [h4] using Nat.le_succ_of_le (ih (some ty))
        · simp [h3]

/-- The fuel of `parseReleasesGo` is irrelevant as soon as it exceeds the
queue length: every iteration consumes at least the `h2` token.  Hence the
wrapper's `tokens.length + 1` faithfully runs the source's unbounded loop. -/
theorem parseReleasesGo_fuel_irrel (opts : Options) :
    ∀ (f1 f2 : Nat) (cl : Changelog) (tokens : List Token),
      tokens.length < f1 → tokens.length < f2 →
      parseReleasesGo opts f1 cl tokens = parseReleasesGo opts f2 cl tokens := by
  intro f1
  induction f1 with
  | zero => intro f2 cl tokens h1 h2; exact absurd h1 (Nat.not_lt_zero _)
  | succ f1 ih =>
    intro f2 cl tokens h1 h2
    cases f2 with
    | zero => exact absurd h2 (Nat.not_lt_zero _)
    | succ f2 =>
      cases tokens with
      | nil => rfl
      | cons t rest =>
        unfold parseReleasesGo
        by_cases h : t.type = TokenType.h2
        · simp only [h, if_true, eq_self_iff_true]
          by_cases hl : jsToLower (joinContent t.content) = ""
          · simp [hl]
          · simp only [hl, if_false]
            cases hrel : releaseFromHeader opts (classifyHeader (jsToLower (joinContent t.content))) with
            | none => rfl
            | some rel0 =>
              simp only []
              apply ih
              · have hx : (takeTypeChanges none (takeOpt rest TokenType.p).2).2.length ≤ rest.length :=
                  Nat.le_trans (takeTypeChanges_length_le none _) (takeOpt_length_le rest TokenType.p)
                have : rest.length < f1 := by
                  have := Nat.lt_of_succ_lt_succ h1
                  simpa using this
                exact Nat.lt_of_le_of_lt hx this
              · have hx : (takeTypeChanges none (takeOpt rest TokenType.p).2).2.length ≤ rest.length :=
                  Nat.le_trans (takeTypeChanges_length_le none _) (takeOpt_length_le rest TokenType.p)
                have : rest.length < f2 := by
                  have := Nat.lt_of_succ_lt_succ h2
                  simpa using this
                exact Nat.lt_of_le_of_lt hx this
        · simp [h]

/-- C1 counterexample: on the claimed input the version label handed to the
factory is `"1.0.0 "` — the greedy `[^\]]+` group captures the space before
the dash — not `"1.0.0"` as the claim states. -/
theorem c1_version_counterexample :
    (parser "# Title\n\n## 1.0.0 - 2024-01-15\n\n### Added\n- Thing one\n- Thing two\n"
        defaultOptions).map (fun c => c.releases.map (fun r => r.version)) =
      Except.ok [some "1.0.0 "] ∧
    (some "1.0.0 " : Option String) ≠ some "1.0.0" := by decide

/-- C1 (amended): parsing the input succeeds and yields a Document titled
`"Title"` with exactly one release, built via the injected factory with
version `"1.0.0 "` (trailing space from the greedy capture) and date
`"2024-01-15"`, then given the empty description and the change-type
`"added"` with entries `["Thing one", "Thing two"]` in that order. -/
theorem c1_roundtrip_amended (opts : Options) :
    parser "# Title\n\n## 1.0.0 - 2024-01-15\n\n### Added\n- Thing one\n- Thing two\n" opts =
      Except.ok (Changelog.mk "" "Title" ""
        [((Release.setDescription
              (opts.releaseCreator (some "1.0.0 ") (some "2024-01-15") none) "").addChange
            "added" "Thing one").addChange "added" "Thing two"] "" "") := rfl

/-- C2 counterexample: a document whose token stream ends in a
HorizontalRule with no following Paragraph parses successfully (with an
empty footer); the claim says such an input must fail. -/
theorem c2_footer_counterexample :
    parser "# Title\n\n---\n" defaultOptions =
      Except.ok (Changelog.mk "" "Title" "" [] "" "") := by decide

/-- C2 (amended): when a HorizontalRule token (with non-empty joined
content) is at the footer position, the parser reads the footer as an
OPTIONAL Paragraph — if no Paragraph token follows, the footer is set to
the empty string and the footer step succeeds rather than failing. -/
theorem c2_footer_amended (cl : Changelog) (t : Token) (rest : List Token)
    (h : t.type = TokenType.hr) (hne : joinContent t.content ≠ "")
    (hnp : ∀ t2 r2, rest = t2 :: r2 → t2.type ≠ TokenType.p) :
    parseFooter cl (t :: rest) = (setFooter cl "", rest) := by
  cases rest with
  | nil => simp [parseFooter, takeOpt, h, hne]
  | cons t2 r2 =>
    have h2 := hnp t2 r2 rfl
    simp [parseFooter, takeOpt, h, hne, h2]

theorem c2_footer_witness :
    parseFooter emptyChangelog [Token.mk 3 TokenType.hr ["-"]] =
      (setFooter emptyChangelog "", []) :=
  c2_footer_amended emptyChangelog (Token.mk 3 TokenType.hr ["-"]) [] rfl
    (by decide) (fun t2 r2 h => List.noConfusion h)

theorem processTokens_afterFlag_nil (opts : Options) (ts : List Token)
    (h : afterFlag ts = []) :
    processTokens opts ts = Except.error (PErr.frontFault, []) := by
  have h2 : (takeOpt ts TokenType.flag).2 = [] := h
  simp only [processTokens, h2]
  simp [getContent]

theorem processTokens_afterFlag_noH1 (opts : Options) (ts : List Token)
    (t : Token) (r : List Token)
    (h : afterFlag ts = t :: r) (hne : t.type ≠ TokenType.h1) :
    processTokens opts ts = Except.error (PErr.requiredTokenMissing t.line, t :: r) := by
  have h2 : (takeOpt ts TokenType.flag).2 = t :: r := h
  simp only [processTokens, h2]
  simp [getContent, hne]

/-- C3 (amended): if the token stream, after an optional leading Flag token,
does not have an `H1` at the front, the parse fails and no Document is ever
returned.  When a front token exists, the failure is the
`MissingRequiredToken` error wrapped with that token's line number; when the
stream is already empty at that point (e.g. the empty input), the failure
surfaces as the error-path fault (`tokens[0][0]` TypeError) instead of
`MissingRequiredToken`. -/
theorem c3_missing_title_amended (md : String) (opts : Options) :
    (afterFlag (tokenize md) = [] → parser md opts = Except.error TopErr.wrapperFault) ∧
    (∀ t r, afterFlag (tokenize md) = t :: r → t.type ≠ TokenType.h1 →
      parser md opts = Except.error (TopErr.parseError t.line (PErr.requiredTokenMissing t.line))) ∧
    ((afterFlag (tokenize md) = [] ∨
        ∃ t r, afterFlag (tokenize md) = t :: r ∧ t.type ≠ TokenType.h1) →
      ∀ c, parser md opts ≠ Except.ok c) := by
  refine ⟨?_, ?_, ?_⟩
  · intro h
    have hp := processTokens_afterFlag_nil opts (tokenize md) h
    simp [parser, hp]
  · intro t r h hne
    have hp := processTokens_afterFlag_noH1 opts (tokenize md) t r h hne
    simp [parser, hp]
  · intro hcase c
    rcases hcase with h | ⟨t, r, h, hne⟩
    · have hp := processTokens_afterFlag_nil opts (tokenize md) h
      simp [parser, hp]
    · have hp := processTokens_afterFlag_noH1 opts (tokenize md) t r h hne
      simp [parser, hp]

theorem c3_missing_title_witness :
    parser "- x" defaultOptions =
      Except.error (TopErr.parseError 1 (PErr.requiredTokenMissing 1)) :=
  (c3_missing_title_amended "- x" defaultOptions).2.1 (Token.mk 1 TokenType.li ["x"]) []
    (by decide) (by decide)

/-- C3 counterexample: on the empty input (empty token stream) the claim
demands a `MissingRequiredToken` failure, but the parse fails with the
wrapper's own TypeError (`wrapperFault`), which is not a
`MissingRequiredToken` error. -/
theorem c3_missing_title_counterexample :
    parser "" defaultOptions = Except.error TopErr.wrapperFault ∧
    isMissingRequiredErr (parser "" defaultOptions) = false := by decide

/-- C4: whenever the parse fails with a non-empty remaining queue, the
surfaced error is wrapped with the line number of the token at the front of
the queue at failure time; and on the empty input — which tokenizes to no
tokens — the inner failure is the front-token fault and the wrapper itself
faults while reading `tokens[0][0]`, surfacing `wrapperFault` instead of
reporting the original failure. -/
theorem c4_error_line_context :
    (∀ (md : String) (opts : Options) (e : PErr) (t : Token) (rem : List Token),
      processTokens opts (tokenize md) = Except.error (e, t :: rem) →
      parser md opts = Except.error (TopErr.parseError t.line e)) ∧
    (processTokens defaultOptions (tokenize "") = Except.error (PErr.frontFault, []) ∧
      parser "" defaultOptions = Except.error TopErr.wrapperFault) := by
  refine ⟨?_, by decide, by decide⟩
  intro md opts e t rem h
  simp [parser, h]

theorem c4_error_line_context_witness :
    parser "# T\n\n## bad!\n- item" defaultOptions =
      Except.error (TopErr.parseError 4 PErr.invalidReleaseHeader) :=
  c4_error_line_context.1 "# T\n\n## bad!\n- item" defaultOptions
    PErr.invalidReleaseHeader (Token.mk 4 TokenType.li ["item"]) [] (by decide)

/-- C5 counterexample: the header text `"x] 1.0.0 - 2024-01-15"` is rejected
by the claim's start-anchored pattern (no match of the whole text from
position 0) and contains no `"unreleased"`, so the claim demands an
`InvalidReleaseHeader` failure; but the source's pattern has no start
anchor, matches mid-string, and the parse succeeds with a dated release
whose captured label is `" 1.0.0 "`. -/
theorem c5_anchor_counterexample :
    (parser "# T\n\n## x] 1.0.0 - 2024-01-15" defaultOptions).map
        (fun c => c.releases.map (fun r => r.version)) = Except.ok [some " 1.0.0 "] ∧
    matchPieces datedPieces ("x] 1.0.0 - 2024-01-15".toList) = none ∧
    hasSubstring ("x] 1.0.0 - 2024-01-15".toList) ("unreleased".toList) = false := by decide

/-- C5 (amended): the dated-release case is recognized exactly when the
END-anchored pattern `\[?([^\]]+)\]?\s*-\s*(\d{4}-\d{1,2}-\d{1,2})$`
matches at SOME position (leftmost first, greedy captures) — there is no
start anchor.  Whenever the whole text matches from position 0 (the claim's
anchored reading), the code agrees with it, captures included; texts with
no match at any position and no `"unreleased"` substring fail with
`InvalidReleaseHeader`. -/
theorem c5_anchor_amended :
    (∀ (s : List Char) r, matchPieces datedPieces s = some r →
      searchPieces datedPieces s = some r) ∧
    (∀ (s : String) g1 g2, matchDated s = some (g1, g2) →
      classifyHeader s = HeaderClass.dated g1 g2) ∧
    (∀ s : String, matchDated s = none →
      hasSubstring s.toList ("unreleased".toList) = false →
      classifyHeader s = HeaderClass.invalid) ∧
    (∀ (opts : Options) (cl : Changelog) (n : Nat) (s : String) (rest : List Token),
      jsToLower s ≠ "" → classifyHeader (jsToLower s) = HeaderClass.invalid →
      parseReleases opts cl (Token.mk n TokenType.h2 [s] :: rest) =
        Except.error (PErr.invalidReleaseHeader, rest)) := by
  refine ⟨?_, ?_, ?_, ?_⟩
  · intro s r h
    cases s with
    | nil => simpa [searchPieces] using h
    | cons c t => simp [searchPieces, h]
  · intro s g1 g2 h
    simp [classifyHeader, h]
  · intro s h1 h2
    have h2x : hasSubstring s.data ['u', 'n', 'r', 'e', 'l', 'e', 'a', 's', 'e', 'd'] = false := h2
    simp [classifyHeader, h1, h2x]
  · intro opts cl n s rest hne hinv
    unfold parseReleases
    simp only [List.length_cons]
    unfold parseReleasesGo
    simp only [joinContent]
    simp [hne, hinv, releaseFromHeader]

theorem c5_anchor_witness : classifyHeader "nope" = HeaderClass.invalid :=
  c5_anchor_amended.2.2.1 "nope" (by decide) (by decide)

/-- C6 counterexample: on `"# Title\n\n## v2 - unreleased\n"` the claim says
the release has version `"v2"`; the greedy group of the (unanchored)
labeled-unreleased pattern captures the space before the dash, so the code
produces version `"v2 "`. -/
theorem c6_unreleased_counterexample :
    (parser "# Title\n\n## v2 - unreleased\n" defaultOptions).map
        (fun c => c.releases.map (fun r => (r.version, r.date))) =
      Except.ok [(some "v2 ", none)] ∧
    (some "v2 " : Option String) ≠ some "v2" := by decide

/-- C6 (amended): for an `H2` text without a dated match but containing
`"unreleased"`: if the end-anchored pattern `\[?([^\]]+)\]?\s*-\s*unreleased$`
matches (leftmost, greedy — no start anchor), the release gets group 1 as
label and no date, so `"# Title\n\n## v2 - unreleased\n"` yields version
`"v2 "` (trailing space captured) and no date; otherwise the release is
constructed with no label and no date, so `"# Title\n\n## Unreleased\n"`
yields a release with neither version nor date. -/
theorem c6_unreleased_amended :
    parser "# Title\n\n## v2 - unreleased\n" defaultOptions =
      Except.ok (Changelog.mk "" "Title" ""
        [Release.mk (some "v2 ") none (some "") []] "" "") ∧
    parser "# Title\n\n## Unreleased\n" defaultOptions =
      Except.ok (Changelog.mk "" "Title" ""
        [Release.mk none none (some "") []] "" "") ∧
    (∀ (s : String) g1, matchDated s = none →
      hasSubstring s.toList ("unreleased".toList) = true →
      matchUnrel s = some g1 → classifyHeader s = HeaderClass.labeledUnrel g1) ∧
    (∀ s : String, matchDated s = none →
      hasSubstring s.toList ("unreleased".toList) = true →
      matchUnrel s = none → classifyHeader s = HeaderClass.bareUnrel) := by
  refine ⟨by decide, by decide, ?_, ?_⟩
  · intro s g1 h1 h2 h3
    have h2x : hasSubstring s.data ['u', 'n', 'r', 'e', 'l', 'e', 'a', 's', 'e', 'd'] = true := h2
    simp [classifyHeader, h1, h2x, h3]
  · intro s h1 h2 h3
    have h2x : hasSubstring s.data ['u', 'n', 'r', 'e', 'l', 'e', 'a', 's', 'e', 'd'] = true := h2
    simp [classifyHeader, h1, h2x, h3]

theorem c6_unreleased_witness :
    classifyHeader "v2 - unreleased" = HeaderClass.labeledUnrel "v2 " :=
  c6_unreleased_amended.2.2.1 "v2 - unreleased" "v2 " (by decide) (by decide) (by decide)

/-- C7: in the tokenizer's merge pass, a line classified as Paragraph that
immediately follows a ListItem token (the previously emitted token, with a
positive line index) is appended to that ListItem's content with up to two
leading whitespace characters stripped (`replace(/^\s\s/, "")`), and so a
ListItem line followed by an indented continuation line yields one token
containing both lines, the continuation stripped of its two leading
spaces. -/
theorem c7_continuation_merge :
    (∀ (prev : Token) (rest : List Token) (c : String) (ln idx : Nat),
      prev.type = TokenType.li → 0 < idx →
      mergeStep (prev :: rest) idx (Token.mk ln TokenType.p [c]) =
        Token.mk prev.line prev.type (prev.content ++ [stripTwoWs c]) :: rest) ∧
    tokenize "- item\n  cont" = [Token.mk 1 TokenType.li ["item", "cont"]] := by
  constructor
  · intro prev rest c ln idx h hidx
    simp [mergeStep, h, hidx]
  · decide

theorem c7_continuation_witness :
    mergeStep [Token.mk 1 TokenType.li ["item"]] 1 (Token.mk 2 TokenType.p ["  more"]) =
      [Token.mk 1 TokenType.li ["item", "more"]] :=
  c7_continuation_merge.1 (Token.mk 1 TokenType.li ["item"]) [] "  more" 2 1 rfl
    (by decide)

/-- C8: `tokenize` is total by construction — it is a Lean function on all
of `String`, so every input terminates with a token list (the source's
blank-line trimming loops are embedded as `dropWhile`, which computes the
same result on every token that survives the non-blank filter) — and every
input consisting only of whitespace characters, the empty input included,
tokenizes to the empty token sequence. -/
theorem c8_tokenize_total :
    (∀ s : String, (∀ c ∈ s.toList, jsWhitespace c = true) → tokenize s = []) ∧
    tokenize "" = [] := by
  constructor
  · intro s hws
    have h0 : s.toList.dropWhile jsWhitespace = [] := by
      rw [List.dropWhile_eq_nil_iff]
      intro x hx
      exact hws x hx
    have h : jsTrim s = "" := by
      unfold jsTrim trimChars
      rw [h0]
      rfl
    unfold tokenize
    rw [h]
    decide
  · decide

theorem c8_tokenize_witness : tokenize " \t\n " = [] :=
  c8_tokenize_total.1 " \t\n " (by decide)

/-- C9 counterexample: the line `"#"` (no following space) is classified as
a Paragraph token containing `"#"` — not as a heading of any level — and it
is kept, not dropped. -/
theorem c9_bare_hash_counterexample :
    tokenize "#" = [Token.mk 1 TokenType.p ["#"]] ∧
    TokenType.p ≠ TokenType.h1 := by decide

/-- C9 (amended): a line consisting only of `#`, `##` or `###` with no
following space does NOT match the heading patterns (which require the
trailing space); it falls through to the Paragraph fallback with the line
itself as content, and the resulting token is kept rather than dropped. -/
theorem c9_bare_hash_amended (n : Nat) :
    classifyLine n "#" = Token.mk n TokenType.p ["#"] ∧
    classifyLine n "##" = Token.mk n TokenType.p ["##"] ∧
    classifyLine n "###" = Token.mk n TokenType.p ["###"] ∧
    tokenize "##" = [Token.mk 1 TokenType.p ["##"]] ∧
    tokenize "###" = [Token.mk 1 TokenType.p ["###"]] := by
  refine ⟨rfl, rfl, rfl, by decide, by decide⟩

/-- C10: the version label handed to the release factory is captured from
the LOWERCASED `H2` text — `"# T\n\n## [RC1] - 2024-01-15"` yields a release
whose version is `"rc1"`, not `"RC1"` — and, generally, the release step
cannot distinguish two `H2` contents with the same lowercasing, so original
casing is not preserved anywhere in the constructed release. -/
theorem c10_lowercase_label :
    ((parser "# T\n\n## [RC1] - 2024-01-15" defaultOptions).map
        (fun c => c.releases.map (fun r => r.version)) = Except.ok [some "rc1"]) ∧
    (∀ (opts : Options) (cl : Changelog) (n : Nat) (s t : String) (rest : List Token),
      jsToLower s = jsToLower t →
      parseReleases opts cl (Token.mk n TokenType.h2 [s] :: rest) =
        parseReleases opts cl (Token.mk n TokenType.h2 [t] :: rest)) := by
  constructor
  · decide
  · intro opts cl n s t rest h
    unfold parseReleases
    simp only [List.length_cons]
    unfold parseReleasesGo
    simp only [joinContent]
    rw [h]
    simp

theorem c10_lowercase_witness :
    parseReleases defaultOptions emptyChangelog [Token.mk 1 TokenType.h2 ["Unreleased"]] =
      parseReleases defaultOptions emptyChangelog [Token.mk 1 TokenType.h2 ["UNRELEASED"]] :=
  c10_lowercase_label.2 defaultOptions emptyChangelog 1 "Unreleased" "UNRELEASED" []
    (by decide)
